import Mathlib

/-!
Verification development for the Telegram-to-Slack daily summary bot
(`main.py`).  The Python source is shallowly embedded: strings are Lean
`String`s, Python `None` for text results is `Option`, network calls are
passed in as explicit oracle functions (`Except Unit String` for the
generation backend, `Option String` for HTTP article retrieval), and the
effects a function performs (backend calls, sleeps, webhook posts) are
returned as explicit traces.  Timestamps are modelled as minutes on an
integer timeline, already normalised to KST (the `astimezone` conversion in
the source does not change the instant, only its representation).
-/

set_option autoImplicit false

namespace TgSlack

/-! ### Python string primitives -/

/-- ASCII whitespace as recognised by Python's `str.strip()` / `\s`
(restricted to the ASCII range; all texts in this development are drawn
from that range). -/
def isPySpace (c : Char) : Bool :=
  c == ' ' || c == '\t' || c == '\n' || c == '\r' || c == '\x0b' || c == '\x0c'

/-- Python `s.strip()`: remove whitespace from both ends. -/
def pyStrip (s : String) : String :=
  String.mk (((s.data.dropWhile isPySpace).reverse.dropWhile isPySpace).reverse)

/-- Python `s[:n]` for a nonnegative bound. -/
def pyTake (n : Nat) (s : String) : String :=
  String.mk (s.data.take n)

/-- Predicate `isPrefixL needle hay`: `needle` is a prefix of `hay` (decidable scan). -/
def isPrefixL : List Char → List Char → Bool
  | [], _ => true
  | _ :: _, [] => false
  | a :: as, b :: bs => a == b && isPrefixL as bs

/-- Predicate `isSubL needle hay`: `needle` occurs contiguously inside `hay`;
this is Python's `needle in hay` on strings. -/
def isSubL (needle : List Char) : List Char → Bool
  | [] => isPrefixL needle []
  | c :: t => isPrefixL needle (c :: t) || isSubL needle t

/-- Python `needle in hay` for strings. -/
def strContains (hay needle : String) : Bool :=
  isSubL needle.data hay.data

/-- Python `s.lower()` (ASCII case folding; the Korean keywords are
unaffected by case folding). -/
def lowerStr (s : String) : String :=
  String.mk (s.data.map Char.toLower)

/-- Predicate `strStartsWith s p`: `p` is a prefix of `s`. -/
def strStartsWith (s p : String) : Bool :=
  isPrefixL p.data s.data

/-- Python `s.split('\n')` on the character list: the (possibly empty)
runs between newline characters. -/
def splitNlL : List Char → List (List Char)
  | [] => [[]]
  | c :: t =>
    if c == '\n' then [] :: splitNlL t
    else
      match splitNlL t with
      | [] => [[c]]
      | h :: r => (c :: h) :: r

/-- Python `s.split('\n')`. -/
def pySplitNl (s : String) : List String :=
  (splitNlL s.data).map String.mk

/-- Python `'\n'.join(lines)`. -/
def joinNl : List String → String
  | [] => ""
  | [s] => s
  | s :: rest => s ++ "\n" ++ joinNl rest

/-! ### Content Extractor: `fetch_article_content` (main.py lines 157-235)

The HTTP fetch, BeautifulSoup parsing and CSS-selector extraction are
summarised by an oracle that yields the markup-stripped text of the page
(`none` on transport/status failure).  From that point the source is
embedded verbatim: whitespace clean-up, the 300-character minimum, the
paywall-keyword gate, and the 5000-character cap. -/

/-- The fixed paywall keyword list of `fetch_article_content`. -/
def paywall_keywords : List String :=
  ["sign up", "subscribe", "subscription", "premium",
   "유료", "구독", "become a member", "join now",
   "create account", "log in to read", "members only"]

/-- Lines 206-208: split on newlines, strip each line, drop blank lines,
re-join with single newlines. -/
def cleanContent (content : String) : String :=
  joinNl (((pySplitNl content).map pyStrip).filter (fun l => !(l == "")))

/-- Line 221: some paywall keyword occurs (case-insensitively) in the text. -/
def hasPaywallKeyword (content : String) : Bool :=
  paywall_keywords.any (fun k => strContains (lowerStr content) k)

/-- Lines 210-229 of `fetch_article_content`, applied to the cleaned
content: minimum-length gate, paywall gate, length cap. -/
def fetch_article_content_gate (content : String) : Option String :=
  if content.length < 300 then none
  else if hasPaywallKeyword content && decide (content.length < 1000) then none
  else some (if content.length > 5000 then pyTake 5000 content else content)

/-- Function `fetch_article_content` given the extraction oracle's outcome:
`none` (request/parse failure, or no content found) yields `none`
(lines 231-235); otherwise the cleaned text runs through the gate. -/
def fetch_article_content (extracted : Option String) : Option String :=
  match extracted with
  | none => none
  | some raw => fetch_article_content_gate (cleanContent raw)

/-! ### `extract_urls` (main.py lines 142-154)

Embedding of `re.findall(r'https?://[^\s<>"{}|\\^`\[\]]+', text)`:
non-overlapping leftmost matches, each a scheme (`http://` or `https://`,
the `s` taken greedily when `://` follows it) followed by a maximal
nonempty run of characters outside the excluded class. -/

/-- A character that terminates the URL body: whitespace or one of the
excluded characters of the regex character class. -/
def urlStopChar (c : Char) : Bool :=
  isPySpace c || c == '<' || c == '>' || c == '\x22' || c == '\x7b' ||
  c == '\x7d' || c == '|' || c == '\\' || c == '^' || c == '\x60' ||
  c == '[' || c == ']'

/-- Scan for the regex's matches over the character list. -/
def findURLs (l : List Char) : List String :=
  match l with
  | 'h' :: 't' :: 't' :: 'p' :: 's' :: ':' :: '/' :: '/' :: r =>
    let body := r.takeWhile (fun c => !urlStopChar c)
    if body.isEmpty then
      findURLs ('t' :: 't' :: 'p' :: 's' :: ':' :: '/' :: '/' :: r)
    else
      String.mk ('h' :: 't' :: 't' :: 'p' :: 's' :: ':' :: '/' :: '/' :: body)
        :: findURLs (r.drop body.length)
  | 'h' :: 't' :: 't' :: 'p' :: ':' :: '/' :: '/' :: r =>
    let body := r.takeWhile (fun c => !urlStopChar c)
    if body.isEmpty then
      findURLs ('t' :: 't' :: 'p' :: ':' :: '/' :: '/' :: r)
    else
      String.mk ('h' :: 't' :: 't' :: 'p' :: ':' :: '/' :: '/' :: body)
        :: findURLs (r.drop body.length)
  | _ :: rest => findURLs rest
  | [] => []
termination_by l.length
decreasing_by
  all_goals simp [List.length_drop]
  all_goals omega

/-- Function `extract_urls(text)`. -/
def extract_urls (text : String) : List String :=
  findURLs text.data

/-! ### Message Fetcher: `fetch_yesterday_messages` (main.py lines 73-139)

The Telethon stream is modelled as the list of messages that
`iter_messages(entity, limit=100)` yields, newest first.  `message.date`
converted to KST is an integer timestamp (minutes); `message.message`,
`message.text` and `message.media` become the fields below, with Python
`None` text encoded as `""`. -/

/-- One item of the newest-first source stream. -/
structure TLMessage where
  id : Nat
  message : String
  textAttr : String
  hasMedia : Bool
  dateKST : Int
deriving DecidableEq

/-- One fetched message dictionary (lines 127-132). -/
structure MsgRec where
  id : Nat
  text : String
  dateKST : Int
  link : String
deriving DecidableEq

/-- Lines 114-118: use `message.message`, falling back to the media
caption `message.text` when the former is empty and media is present. -/
def effectiveText (m : TLMessage) : String :=
  if m.message == "" then (if m.hasMedia then m.textAttr else "") else m.message

/-- The message dictionary built for a kept message (lines 125-132). -/
def toMsgRec (channel : String) (m : TLMessage) : MsgRec :=
  { id := m.id
    text := effectiveText m
    dateKST := m.dateKST
    link := "https://t.me/" ++ channel ++ "/" ++ toString m.id }

/-- The `async for` loop of lines 98-132: stop at the first message older
than the window start, skip messages newer than the window end, skip
messages whose trimmed text is empty, keep the rest in stream order. -/
def fetchLoop (channel : String) (ystart yend : Int) : List TLMessage → List MsgRec
  | [] => []
  | m :: rest =>
    if m.dateKST < ystart then []
    else if yend < m.dateKST then fetchLoop channel ystart yend rest
    else if pyStrip (effectiveText m) == "" then fetchLoop channel ystart yend rest
    else toMsgRec channel m :: fetchLoop channel ystart yend rest

/-- Function `fetch_yesterday_messages`: a retrieval error (lines 137-139) yields
the empty list; otherwise the stream is filtered by `fetchLoop`. -/
def fetch_yesterday_messages (channel : String) (ystart yend : Int)
    (stream : Except Unit (List TLMessage)) : List MsgRec :=
  match stream with
  | .error _ => []
  | .ok msgs => fetchLoop channel ystart yend msgs

/-- The stream is sorted newest-first (non-increasing timestamps), the
documented order of the source's message iterator. -/
def sortedDesc : List TLMessage → Bool
  | [] => true
  | [_] => true
  | a :: b :: t => decide (b.dateKST ≤ a.dateKST) && sortedDesc (b :: t)

/-- A message the loop keeps: inside the window with non-blank text. -/
def keepMsg (ystart yend : Int) (m : TLMessage) : Bool :=
  decide (ystart ≤ m.dateKST) && decide (m.dateKST ≤ yend) &&
    !(pyStrip (effectiveText m) == "")

/-- Timestamps are non-decreasing oldest-first (the order the claim
asserts for the fetcher's output). -/
def sortedAscInt : List Int → Bool
  | [] => true
  | [_] => true
  | a :: b :: t => decide (a ≤ b) && sortedAscInt (b :: t)

/-! ### Generation Client (main.py lines 238-341)

Both operations POST one prompt to the Gemini endpoint.  The whole
HTTP-call-plus-JSON-parse is an `Except Unit String` oracle outcome: `.ok`
carries the `candidates[0].content.parts[0].text` field, `.error` is any
exception raised by `requests.post`, `raise_for_status`, or the response
parsing.  Each operation also returns the trace of observable effects it
performed, in order; sleeps are recorded in tenths of a second. -/

/-- An observable effect of a Generation Client operation. -/
inductive GenEffect
  | genCall (promptInput : String)
  | sleepTenths (t : Nat)
deriving DecidableEq

/-- Function `translate_to_korean` (lines 238-282).  The prompt embeds
`text[:3000]`; on success the response text is stripped and returned
after a 4.5-second sleep; on any exception the function returns `None`
without sleeping. -/
def translate_to_korean (text : String) (backend : Except Unit String) :
    Option String × List GenEffect :=
  match backend with
  | .ok raw => (some (pyStrip raw), [.genCall (pyTake 3000 text), .sleepTenths 45])
  | .error _ => (none, [.genCall (pyTake 3000 text)])

/-- The non-blank stripped lines of a generation output (line 329). -/
def nonBlankLines (s : String) : List String :=
  ((pySplitNl s).map pyStrip).filter (fun l => !(l == ""))

/-- Function `summarize_with_gemini` (lines 285-341).  On success: sleep 4.5 s,
then keep the first 3 non-blank lines when more than 3 are returned, the
joined non-blank lines when fewer than 3, and the whole stripped response
when exactly 3.  On any exception: no sleep, and the fallback is the
first 200 characters of the input, `"..."`-suffixed iff it was longer. -/
def summarize_with_gemini (text : String) (backend : Except Unit String) :
    String × List GenEffect :=
  match backend with
  | .ok raw =>
    let summary := pyStrip raw
    let lines := nonBlankLines summary
    let out :=
      if lines.length > 3 then joinNl (lines.take 3)
      else if lines.length < 3 then joinNl lines
      else summary
    (out, [.genCall (pyTake 3000 text), .sleepTenths 45])
  | .error _ =>
    ((if text.length > 200 then pyTake 200 text ++ "..." else text),
     [.genCall (pyTake 3000 text)])

/-! ### Channel Strategy Dispatcher (main.py lines 461-523) -/

/-- Per-channel processing strategy (`TELEGRAM_CHANNELS` values). -/
inductive Strategy
  | scrape
  | translate
deriving DecidableEq

/-- One deliverable output item (the dictionaries of lines 517-522). -/
structure SummaryItem where
  summary : String
  dateKST : Int
  link : String
  channel : String
deriving DecidableEq

/-- The external collaborators of the per-message processing loop. -/
structure Oracles where
  fetchArticle : String → Option String
  genSummarize : String → Except Unit String
  genTranslate : String → Except Unit String

/-- Line 483: the substring test that skips X.com / t.me / twitter.com
links before any fetch is attempted. -/
def isSkippedUrl (url : String) : Bool :=
  strContains url "x.com" || strContains url "t.me" || strContains url "twitter.com"

/-- The URL loop of lines 481-496, instrumented with the list of URLs on
which `fetch_article_content` was actually invoked: skip flagged URLs,
fetch the rest in order, and stop at the first fetch yielding content of
length ≥ 300. -/
def tryUrls (fetch : String → Option String) : List String →
    Option (String × String) × List String
  | [] => (none, [])
  | u :: rest =>
    if isSkippedUrl u then tryUrls fetch rest
    else
      match fetch u with
      | some c =>
        if 300 ≤ c.length then (some (c, u), [u])
        else
          let r := tryUrls fetch rest
          (r.fst, u :: r.snd)
      | none =>
        let r := tryUrls fetch rest
        (r.fst, u :: r.snd)

/-- A URL's fetch outcome when usable (content present and ≥ 300 chars),
paired with the URL; the value the loop commits to on first success. -/
def usableFetch (fetch : String → Option String) (u : String) :
    Option (String × String) :=
  match fetch u with
  | some c => if 300 ≤ c.length then some (c, u) else none
  | none => none

/-- The per-message body of the dispatcher loop (lines 471-523),
producing at most one `SummaryItem`. -/
def processMessage (o : Oracles) (strategy : Strategy) (channel : String)
    (msg : MsgRec) : Option SummaryItem :=
  match strategy with
  | .scrape =>
    match (tryUrls o.fetchArticle (extract_urls msg.text)).fst with
    | none => none
    | some (content, url) =>
      let s := (summarize_with_gemini content (o.genSummarize content)).fst
      if s == "" then none
      else some { summary := s, dateKST := msg.dateKST,
                  link := if url == "" then msg.link else url, channel := channel }
  | .translate =>
    match (translate_to_korean msg.text (o.genTranslate msg.text)).fst with
    | none => none
    | some s =>
      if s == "" then none
      else
        let urls := extract_urls msg.text
        let article_url := match urls with | [] => msg.link | u :: _ => u
        let finalLink := if article_url == "" then msg.link else article_url
        some { summary := s, dateKST := msg.dateKST, link := finalLink, channel := channel }

/-! ### Delivery Formatter: `send_to_slack` (main.py lines 344-437)

A Slack block is one of the four block kinds the function builds; a
payload is the block list of one webhook POST.  `send_to_slack` returns
the list of payloads it submits, in submission order (each chunk is
POSTed independently; a failed POST is only logged, so the submission
list does not depend on delivery outcomes). -/

/-- One Slack block. -/
inductive Block
  | header (text : String)
  | divider
  | sec (text : String)
  | ctx (text : String)
deriving DecidableEq

/-- Two-digit padding for `%H:%M` rendering. -/
def pad2 (n : Nat) : String := if n < 10 then "0" ++ toString n else toString n

/-- Rendering of `date.strftime('%H:%M')` for the minute-resolution timestamp model. -/
def fmtHM (ts : Int) : String :=
  pad2 ((ts.toNat / 60) % 24) ++ ":" ++ pad2 (ts.toNat % 60)

/-- Lines 360-363: the fixed display-name table with raw-name fallback. -/
def channelDisplay (name : String) : String :=
  if name == "ahboyashreads" then "Ahboyreads"
  else if name == "shoalresearch" then "Shoal Research"
  else name

/-- Line 368: `[summaries[i:i+15] for i in range(0, len(summaries), 15)]`,
written with a structural fuel argument (the list length bounds the
number of slices) so that it evaluates by kernel reduction;
`chunks15_cons` recovers the natural recursion. -/
def chunks15Go {α : Type} : Nat → List α → List (List α)
  | _, [] => []
  | 0, _ :: _ => []
  | n + 1, a :: rest => (a :: rest).take 15 :: chunks15Go n ((a :: rest).drop 15)

/-- The chunk partition of line 368. -/
def chunks15 {α : Type} (l : List α) : List (List α) := chunks15Go l.length l

theorem chunks15Go_irrel {α : Type} : ∀ (n m : Nat) (l : List α),
    l.length ≤ n → l.length ≤ m → chunks15Go n l = chunks15Go m l
  | n, m, [], _, _ => by cases n <;> cases m <;> rfl
  | 0, _, a :: rest, h1, _ => by simp at h1
  | _ + 1, 0, a :: rest, _, h2 => by simp at h2
  | n + 1, m + 1, a :: rest, h1, h2 => by
    unfold chunks15Go
    rw [chunks15Go_irrel n m ((a :: rest).drop 15)
      (by simp only [List.length_drop, List.length_cons] at *; omega)
      (by simp only [List.length_drop, List.length_cons] at *; omega)]

theorem chunks15_cons {α : Type} (a : α) (rest : List α) :
    chunks15 (a :: rest) = (a :: rest).take 15 :: chunks15 ((a :: rest).drop 15) := by
  show chunks15Go (rest.length + 1) (a :: rest) = _
  unfold chunks15Go
  rw [chunks15Go_irrel rest.length ((a :: rest).drop 15).length ((a :: rest).drop 15)
    (by simp only [List.length_drop, List.length_cons]; omega) le_rfl]
  rfl

/-- The header text of a chunk (line 377): annotated with the chunk
position iff there is more than one chunk. -/
def headerText (display date : String) (total idx : Nat) : String :=
  "📰 " ++ display ++ " 일간 크립토 뉴스 요약 - " ++ date ++
    (if 1 < total then " (" ++ toString idx ++ "/" ++ toString total ++ ")" else "")

/-- Lines 386-411: the per-item blocks of one chunk — a numbered section,
an optional link section, and a divider after every item but the last. -/
def itemBlocks (start_idx : Nat) (chunk : List SummaryItem) : List Block :=
  (chunk.enum.map (fun p =>
    let idx := start_idx + 1 + p.fst
    [Block.sec ("*" ++ toString idx ++ ". [" ++ fmtHM p.snd.dateKST ++ "] 뉴스*\n"
        ++ p.snd.summary)]
    ++ (if p.snd.link == "" then [] else
          [Block.sec ("<" ++ p.snd.link ++ "|📎 원문 보기>")])
    ++ (if idx < start_idx + chunk.length then [Block.divider] else []))).flatten

/-- The footer block of the final chunk (lines 414-423). -/
def footerBlock (nTotal : Nat) : Block :=
  Block.ctx ("총 " ++ toString nTotal ++ "개의 뉴스 | Powered by Google Gemini")

/-- The full payload of chunk number `chunk_idx` (1-based), lines 370-423. -/
def chunkBlocks (display date : String) (nTotal total chunk_idx : Nat)
    (chunk : List SummaryItem) : List Block :=
  [Block.header (headerText display date total chunk_idx), Block.divider]
  ++ itemBlocks ((chunk_idx - 1) * 15) chunk
  ++ (if chunk_idx == total then [footerBlock nTotal] else [])

/-- Function `send_to_slack`: with no summaries it logs and returns, submitting
nothing (lines 354-356); otherwise it derives the display name from the
first item, partitions into chunks of 15, and POSTs one payload per
chunk. -/
def send_to_slack (summaries : List SummaryItem) (date : String) :
    List (List Block) :=
  match summaries with
  | [] => []
  | s0 :: _ =>
    let display := channelDisplay s0.channel
    let chunks := chunks15 summaries
    chunks.enum.map (fun p =>
      chunkBlocks display date summaries.length chunks.length (p.fst + 1) p.snd)

/-! ### Pipeline Orchestrator (main.py lines 440-563) -/

/-- The four required environment variables; `Option.none` models an
unset variable, `some ""` an empty one — both count as missing
(`if not value`, line 48). -/
structure Config where
  telegram_api_id : Option String
  telegram_api_hash : Option String
  gemini_api_key : Option String
  slack_webhook_url : Option String

/-- One required variable is absent or empty. -/
def valueMissing : Option String → Bool
  | none => true
  | some s => s == ""

/-- Predicate for `validate_config` failing (lines 39-51). -/
def configMissing (c : Config) : Bool :=
  valueMissing c.telegram_api_id || valueMissing c.telegram_api_hash ||
  valueMissing c.gemini_api_key || valueMissing c.slack_webhook_url

/-- The static channel table (lines 30-33; Python 3.7+ dicts preserve
insertion order). -/
def TELEGRAM_CHANNELS : List (String × Strategy) :=
  [("ahboyashreads", .scrape), ("shoalresearch", .translate)]

/-- The whole external world of one run. -/
structure Env where
  cfg : Config
  arg : Option String
  connectOk : Bool
  fetch : String → Except Unit (List TLMessage)
  oracles : Oracles
  ystart : Int
  yend : Int
  dateLabel : String

/-- The outcome of a run: a fatal configuration exit (`sys.exit(1)`), an
abort by a re-raised exception (lines 540-542), or completion with the
list of webhook submissions performed. -/
inductive RunResult
  | fatalConfig
  | aborted
  | completed (posts : List (List Block))
deriving DecidableEq

/-- Recogniser for `RunResult.completed`. -/
def RunResult.isCompleted : RunResult → Bool
  | .completed _ => true
  | _ => false

/-- Process one channel (lines 461-523): fetch, then run the strategy on
each message, dropping messages that produce nothing. -/
def runChannel (env : Env) (c : String × Strategy) : List SummaryItem :=
  (fetch_yesterday_messages c.fst env.ystart env.yend (env.fetch c.fst)).filterMap
    (processMessage env.oracles c.snd c.fst)

/-- Lines 459-536: aggregate all channels in order and deliver.  Both
branches of lines 531-536 call `send_to_slack` (with the aggregate or
with `[]`), so the submissions are `send_to_slack` of the aggregate
either way. -/
def pipeline (env : Env) (channels : List (String × Strategy)) :
    List (List Block) :=
  send_to_slack (channels.map (runChannel env)).flatten env.dateLabel

/-- The body of `main()` (lines 440-545): `validate_config` exits on
missing configuration before any external contact; a failure of
`client.start()` raises inside the `try`, is re-raised by the handler of
lines 540-542, and aborts the run; otherwise the pipeline runs to
completion (every failure inside it is caught where it arises). -/
def mainBody (env : Env) (channels : List (String × Strategy)) : RunResult :=
  if configMissing env.cfg then .fatalConfig
  else if !env.connectOk then .aborted
  else .completed (pipeline env channels)

/-- The `__main__` entry (lines 548-563): an unknown channel-filter
argument exits before anything else runs; a known one restricts the
channel table to that single channel. -/
def runMain (env : Env) : RunResult :=
  match env.arg with
  | none => mainBody env TELEGRAM_CHANNELS
  | some a =>
    if TELEGRAM_CHANNELS.any (fun c => c.fst == a) then
      mainBody env (TELEGRAM_CHANNELS.filter (fun c => c.fst == a))
    else .fatalConfig

/-! ### Supporting lemmas -/

theorem isPrefixL_append (l m : List Char) : isPrefixL l (l ++ m) = true := by
  induction l with
  | nil => rfl
  | cons a as ih => simp [isPrefixL, ih]

theorem pyTake_of_le (n : Nat) (s : String) (h : s.length ≤ n) : pyTake n s = s := by
  obtain ⟨l⟩ := s
  simp only [pyTake, String.length] at *
  rw [List.take_of_length_le h]

theorem pyTake_length_le (n : Nat) (s : String) : (pyTake n s).length ≤ n := by
  obtain ⟨l⟩ := s
  simp [pyTake, String.length]

/-! ### Claim theorems: Content Extractor -/

/-- Claim C4: For every successfully fetched and markup-stripped document
text `d` (the cleaned text entering the gates of
`fetch_article_content`), the result is present iff `len(d) ≥ 300` and
not (a paywall keyword occurs case-insensitively in `d` and
`len(d) < 1000`); when present, the result is `d` truncated to at most
5000 characters. -/
theorem claim_C4 (d : String) :
    fetch_article_content_gate d =
      (if 300 ≤ d.length ∧ ¬(hasPaywallKeyword d = true ∧ d.length < 1000)
       then some (pyTake 5000 d) else none)
    ∧ ((fetch_article_content_gate d).elim true
        (fun r => decide (r.length ≤ 5000))) = true := by
  constructor
  · unfold fetch_article_content_gate
    by_cases h1 : d.length < 300
    · rw [if_pos h1, if_neg]
      rintro ⟨h2, -⟩
      omega
    · rw [if_neg h1]
      by_cases h2 : hasPaywallKeyword d = true
      · by_cases h3 : d.length < 1000
        · rw [if_pos (by simp [h2, h3]), if_neg]
          rintro ⟨-, h4⟩
          exact h4 ⟨h2, h3⟩
        · rw [if_neg (by simp [h3])]
          by_cases h5 : d.length > 5000
          · rw [if_pos h5, if_pos ⟨by omega, fun h => h3 h.2⟩]
          · rw [if_neg h5, pyTake_of_le 5000 d (by omega),
              if_pos ⟨by omega, fun h => h3 h.2⟩]
      · rw [if_neg (by simp [h2])]
        by_cases h5 : d.length > 5000
        · rw [if_pos h5, if_pos ⟨by omega, fun h => h2 h.1⟩]
        · rw [if_neg h5, pyTake_of_le 5000 d (by omega),
            if_pos ⟨by omega, fun h => h2 h.1⟩]
  · unfold fetch_article_content_gate
    by_cases h1 : d.length < 300
    · rw [if_pos h1]; rfl
    · rw [if_neg h1]
      by_cases h2 : (hasPaywallKeyword d && decide (d.length < 1000)) = true
      · rw [if_pos h2]; rfl
      · rw [if_neg h2]
        by_cases h5 : d.length > 5000
        · rw [if_pos h5]
          simp [Option.elim, pyTake_length_le]
        · rw [if_neg h5]
          simp [Option.elim]
          omega

/-! ### Claim theorems: Generation Client and translate strategy -/

/-- Claim C5: Under the translate strategy, a backend failure makes
`translate_to_korean` return absent, and the Strategy Dispatcher then
drops the message, producing no output item. -/
theorem claim_C5 (o : Oracles) (channel : String) (msg : MsgRec) (e : Unit)
    (h : o.genTranslate msg.text = .error e) :
    (translate_to_korean msg.text (o.genTranslate msg.text)).fst = none
    ∧ processMessage o .translate channel msg = none := by
  constructor
  · rw [h]
    rfl
  · unfold processMessage
    rw [h]
    rfl

/-- Witness for C5: a concretely failing backend, a concrete message. -/
def oraclesAllFail : Oracles :=
  ⟨fun _ => none, fun _ => Except.error (), fun _ => Except.error ()⟩

theorem claim_C5_witness :
    oraclesAllFail.genTranslate "hello" = .error ()
    ∧ ((translate_to_korean "hello" (oraclesAllFail.genTranslate "hello")).fst = none
       ∧ processMessage oraclesAllFail .translate "shoalresearch"
           ⟨7, "hello", 0, "https://t.me/shoalresearch/7"⟩ = none) :=
  ⟨rfl, claim_C5 oraclesAllFail "shoalresearch"
      ⟨7, "hello", 0, "https://t.me/shoalresearch/7"⟩ () rfl⟩

/-- Claim C6 counterexample: When the backend returns exactly 3 non-blank
lines but with a blank line between them, `summarize_with_gemini` returns
the stripped raw output unchanged (`"a\n\nb\nc"`), not the
non-blank-line reduction (`"a\nb\nc"`) the claim asserts. -/
theorem claim_C6_counterexample :
    (summarize_with_gemini "news" (Except.ok "a\n\nb\nc")).fst ≠
      joinNl ((nonBlankLines "a\n\nb\nc").take 3) := by decide

/-- Claim C6 amended: `summarize_with_gemini` never fails: on backend
success it returns the first 3 non-blank stripped lines (newline-joined)
when the output has more than 3, all of them when fewer than 3, and —
unlike the claim — the whole stripped raw output unchanged when there are
exactly 3 non-blank lines; on backend failure it returns the first 200
characters of the input, suffixed with `"..."` iff the input was longer
than 200 characters. -/
theorem claim_C6_amended (text raw : String) (e : Unit) :
    ((summarize_with_gemini text (Except.ok raw)).fst =
      (if (nonBlankLines (pyStrip raw)).length = 3 then pyStrip raw
       else joinNl ((nonBlankLines (pyStrip raw)).take 3)))
    ∧ (summarize_with_gemini text (Except.error e)).fst =
        (if 200 < text.length then pyTake 200 text ++ "..." else text) := by
  constructor
  · show (if (nonBlankLines (pyStrip raw)).length > 3 then _
          else if (nonBlankLines (pyStrip raw)).length < 3 then _ else _) = _
    by_cases h3 : (nonBlankLines (pyStrip raw)).length = 3
    · rw [if_neg (by omega), if_neg (by omega), if_pos h3]
    · rw [if_neg h3]
      by_cases hgt : (nonBlankLines (pyStrip raw)).length > 3
      · rw [if_pos hgt]
      · rw [if_neg hgt, if_pos (by omega),
          List.take_of_length_le (by omega)]
  · rfl

/-- The claim's delay property over an effect trace: every backend call
is followed, later in the trace, by a sleep of at least 4.5 seconds. -/
def hasDelayAfterEachCall : List GenEffect → Bool
  | [] => true
  | .genCall _ :: t =>
    t.any (fun ef => match ef with
      | .sleepTenths n => decide (45 ≤ n)
      | _ => false) && hasDelayAfterEachCall t
  | .sleepTenths _ :: t => hasDelayAfterEachCall t

/-- Claim C9 counterexample: On the backend-failure path neither operation
sleeps at all: the exception handler returns directly, so the 4.5-second
post-call delay is not enforced on every execution path. -/
theorem claim_C9_counterexample :
    hasDelayAfterEachCall (translate_to_korean "text" (Except.error ())).snd = false
    ∧ hasDelayAfterEachCall (summarize_with_gemini "text" (Except.error ())).snd = false := by
  decide

/-- Claim C9 amended: On every successful execution path of
`translate_to_korean` and `summarize_with_gemini` the backend call is
followed by a 4.5-second sleep; on the failure path no sleep is performed
at all, so only consecutive successful backend calls are guaranteed the
4.5-second spacing. -/
theorem claim_C9_amended (text raw : String) (e : Unit) :
    hasDelayAfterEachCall (translate_to_korean text (Except.ok raw)).snd = true
    ∧ hasDelayAfterEachCall (summarize_with_gemini text (Except.ok raw)).snd = true
    ∧ (translate_to_korean text (Except.error e)).snd.all
        (fun ef => match ef with | .sleepTenths _ => false | _ => true) = true
    ∧ (summarize_with_gemini text (Except.error e)).snd.all
        (fun ef => match ef with | .sleepTenths _ => false | _ => true) = true := by
  refine ⟨rfl, rfl, rfl, rfl⟩

/-! ### Claim theorems: Message Fetcher -/

theorem sortedDesc_cons (m : TLMessage) (rest : List TLMessage)
    (h : sortedDesc (m :: rest) = true) :
    sortedDesc rest = true ∧ ∀ x ∈ rest, x.dateKST ≤ m.dateKST := by
  induction rest generalizing m with
  | nil => exact ⟨rfl, by simp⟩
  | cons b t ih =>
    rw [show sortedDesc (m :: b :: t) =
          (decide (b.dateKST ≤ m.dateKST) && sortedDesc (b :: t)) from rfl,
        Bool.and_eq_true, decide_eq_true_eq] at h
    obtain ⟨hbm, hrest⟩ := h
    refine ⟨hrest, ?_⟩
    intro x hx
    rcases List.mem_cons.mp hx with hxb | hxt
    · exact hxb ▸ hbm
    · exact le_trans ((ih b hrest).2 x hxt) hbm

theorem fetchLoop_filter (channel : String) (ys ye : Int)
    (s : List TLMessage) (hs : sortedDesc s = true) :
    fetchLoop channel ys ye s = (s.filter (keepMsg ys ye)).map (toMsgRec channel) := by
  induction s with
  | nil => rfl
  | cons m rest ih =>
    obtain ⟨hrest, hall⟩ := sortedDesc_cons m rest hs
    unfold fetchLoop
    by_cases h1 : m.dateKST < ys
    · rw [if_pos h1]
      have hnil : (m :: rest).filter (keepMsg ys ye) = [] := by
        rw [List.filter_eq_nil_iff]
        intro a ha
        have hlt : a.dateKST < ys := by
          rcases List.mem_cons.mp ha with hm | hm
          · exact hm ▸ h1
          · exact lt_of_le_of_lt (hall a hm) h1
        simp only [keepMsg, Bool.and_eq_true, decide_eq_true_eq, not_and]
        rintro ⟨hya, -⟩
        omega
      rw [hnil]
      rfl
    · rw [if_neg h1]
      by_cases h2 : ye < m.dateKST
      · rw [if_pos h2, List.filter_cons_of_neg, ih hrest]
        simp only [keepMsg, Bool.and_eq_true, decide_eq_true_eq, not_and]
        rintro ⟨-, hy⟩
        omega
      · rw [if_neg h2]
        by_cases h3 : (pyStrip (effectiveText m) == "") = true
        · rw [if_pos h3, List.filter_cons_of_neg, ih hrest]
          simp only [keepMsg, Bool.and_eq_true, decide_eq_true_eq, not_and]
          rintro - hc
          simp [h3] at hc
        · rw [if_neg h3, List.filter_cons_of_pos, List.map_cons, ih hrest]
          simp only [keepMsg, Bool.and_eq_true, decide_eq_true_eq]
          exact ⟨⟨by omega, by omega⟩, by simp [h3]⟩

theorem fetchLoop_stops (channel : String) (ys ye : Int) (m : TLMessage)
    (hm : m.dateKST < ys) (p rest : List TLMessage) :
    fetchLoop channel ys ye (p ++ m :: rest) = fetchLoop channel ys ye (p ++ [m]) := by
  induction p with
  | nil => simp [fetchLoop, hm]
  | cons a t ih =>
    simp only [List.cons_append]
    unfold fetchLoop
    by_cases h1 : a.dateKST < ys
    · rw [if_pos h1, if_pos h1]
    · rw [if_neg h1, if_neg h1]
      by_cases h2 : ye < a.dateKST
      · rw [if_pos h2, if_pos h2, ih]
      · rw [if_neg h2, if_neg h2]
        by_cases h3 : (pyStrip (effectiveText a) == "") = true
        · rw [if_pos h3, if_pos h3, ih]
        · rw [if_neg h3, if_neg h3, ih]

/-- Claim C2 counterexample: A newest-first stream of two in-window
messages is fetched in stream order — newest first, `[50, 10]` — not in
the oldest-first order the claim asserts. -/
theorem claim_C2_counterexample :
    sortedDesc [⟨2, "b", "", false, 50⟩, ⟨1, "a", "", false, 10⟩] = true
    ∧ (fetchLoop "chan" 0 100
        [⟨2, "b", "", false, 50⟩, ⟨1, "a", "", false, 10⟩]).map (fun r => r.dateKST)
        = [50, 10]
    ∧ sortedAscInt ((fetchLoop "chan" 0 100
        [⟨2, "b", "", false, 50⟩, ⟨1, "a", "", false, 10⟩]).map (fun r => r.dateKST))
        = false := by
  refine ⟨by decide, by decide, by decide⟩

/-- Claim C2 amended: For a newest-first (non-increasing) source stream,
the fetcher returns exactly the messages whose KST timestamp `t`
satisfies `start ≤ t ≤ end` and whose trimmed text is non-empty — in
stream order, i.e. newest first, not oldest first — and the loop stops at
the first message with `t < start`, never inspecting anything after it. -/
theorem claim_C2_amended (channel : String) (ys ye : Int)
    (stream p rest : List TLMessage) (m : TLMessage)
    (hs : sortedDesc stream = true) (hm : m.dateKST < ys) :
    fetch_yesterday_messages channel ys ye (Except.ok stream) =
      (stream.filter (keepMsg ys ye)).map (toMsgRec channel)
    ∧ fetchLoop channel ys ye (p ++ m :: rest) = fetchLoop channel ys ye (p ++ [m]) :=
  ⟨fetchLoop_filter channel ys ye stream hs, fetchLoop_stops channel ys ye m hm p rest⟩

theorem claim_C2_witness :
    sortedDesc [⟨3, "c", "", false, 150⟩, ⟨2, "b", "", false, 50⟩] = true
    ∧ (⟨1, "old", "", false, (-3 : Int)⟩ : TLMessage).dateKST < 0
    ∧ (fetch_yesterday_messages "chan" 0 100
        (Except.ok [⟨3, "c", "", false, 150⟩, ⟨2, "b", "", false, 50⟩]) =
        (([⟨3, "c", "", false, 150⟩, ⟨2, "b", "", false, 50⟩] :
            List TLMessage).filter (keepMsg 0 100)).map (toMsgRec "chan")
       ∧ fetchLoop "chan" 0 100
          ([⟨4, "d", "", false, 60⟩] ++ ⟨1, "old", "", false, (-3 : Int)⟩ ::
            [⟨9, "x", "", false, 70⟩]) =
         fetchLoop "chan" 0 100
          ([⟨4, "d", "", false, 60⟩] ++ [⟨1, "old", "", false, (-3 : Int)⟩])) :=
  ⟨by decide, by decide,
   claim_C2_amended "chan" 0 100 [⟨3, "c", "", false, 150⟩, ⟨2, "b", "", false, 50⟩]
     [⟨4, "d", "", false, 60⟩] [⟨9, "x", "", false, 70⟩]
     ⟨1, "old", "", false, (-3 : Int)⟩ (by decide) (by decide)⟩

/-! ### Claim theorems: scrape strategy -/

theorem tryUrls_fst (fetch : String → Option String) (urls : List String) :
    (tryUrls fetch urls).fst =
      (urls.filter (fun u => !isSkippedUrl u)).findSome? (usableFetch fetch) := by
  induction urls with
  | nil => rfl
  | cons u rest ih =>
    by_cases hskip : isSkippedUrl u = true
    · simp [tryUrls, hskip, ih]
    · rw [Bool.not_eq_true] at hskip
      cases hf : fetch u with
      | some c =>
        by_cases hlen : 300 ≤ c.length
        · have hu : usableFetch fetch u = some (c, u) := by
            simp [usableFetch, hf, hlen]
          simp [tryUrls, hskip, hf, hlen, hu, List.findSome?_cons]
        · have hu : usableFetch fetch u = none := by
            simp [usableFetch, hf, hlen]
          simp [tryUrls, hskip, hf, hlen, hu, List.findSome?_cons, ih]
      | none =>
        have hu : usableFetch fetch u = none := by simp [usableFetch, hf]
        simp [tryUrls, hskip, hf, hu, List.findSome?_cons, ih]

theorem tryUrls_snd (fetch : String → Option String) (urls : List String) :
    (tryUrls fetch urls).snd =
      ((urls.filter (fun u => !isSkippedUrl u)).takeWhile
          (fun u => (usableFetch fetch u).isNone))
        ++ (((urls.filter (fun u => !isSkippedUrl u)).dropWhile
          (fun u => (usableFetch fetch u).isNone)).take 1) := by
  induction urls with
  | nil => rfl
  | cons u rest ih =>
    by_cases hskip : isSkippedUrl u = true
    · simp [tryUrls, hskip, ih]
    · rw [Bool.not_eq_true] at hskip
      cases hf : fetch u with
      | some c =>
        by_cases hlen : 300 ≤ c.length
        · have hu : usableFetch fetch u = some (c, u) := by
            simp [usableFetch, hf, hlen]
          simp [tryUrls, hskip, hf, hlen, hu, List.takeWhile_cons, List.dropWhile_cons]
        · have hu : usableFetch fetch u = none := by
            simp [usableFetch, hf, hlen]
          simp [tryUrls, hskip, hf, hlen, hu, List.takeWhile_cons, List.dropWhile_cons, ih]
      | none =>
        have hu : usableFetch fetch u = none := by simp [usableFetch, hf]
        simp [tryUrls, hskip, hf, hu, List.takeWhile_cons, List.dropWhile_cons, ih]

/-- Claim C7: Under the scrape strategy, writing `good` for the links
extracted from the message text that survive the non-scrapeable skip
(`x.com` / `t.me` / `twitter.com`): (1) `fetch_article_content` is
attempted only on non-skipped extracted links; (2) the committed result
is the first usable fetch among `good`, in order; (3) the attempted links
are exactly `good` up to and including the first usable one — nothing is
fetched after the first success; (4) with no usable link the message is
dropped, and with a usable one the first success is what gets summarized
and emitted. -/
theorem claim_C7 (o : Oracles) (channel : String) (msg : MsgRec) :
    ((tryUrls o.fetchArticle (extract_urls msg.text)).snd.all
        (fun u => !isSkippedUrl u) = true)
    ∧ (tryUrls o.fetchArticle (extract_urls msg.text)).fst =
        ((extract_urls msg.text).filter (fun u => !isSkippedUrl u)).findSome?
          (usableFetch o.fetchArticle)
    ∧ (tryUrls o.fetchArticle (extract_urls msg.text)).snd =
        (((extract_urls msg.text).filter (fun u => !isSkippedUrl u)).takeWhile
            (fun u => (usableFetch o.fetchArticle u).isNone))
          ++ ((((extract_urls msg.text).filter (fun u => !isSkippedUrl u)).dropWhile
            (fun u => (usableFetch o.fetchArticle u).isNone)).take 1)
    ∧ (match (tryUrls o.fetchArticle (extract_urls msg.text)).fst with
       | none => processMessage o .scrape channel msg = none
       | some (content, url) =>
         processMessage o .scrape channel msg =
           (if (summarize_with_gemini content (o.genSummarize content)).fst == ""
            then none
            else some
              { summary := (summarize_with_gemini content (o.genSummarize content)).fst
                dateKST := msg.dateKST
                link := if url == "" then msg.link else url
                channel := channel })) := by
  refine ⟨?_, tryUrls_fst o.fetchArticle (extract_urls msg.text),
    tryUrls_snd o.fetchArticle (extract_urls msg.text), ?_⟩
  · rw [List.all_eq_true]
    intro u hu
    rw [tryUrls_snd] at hu
    have hmem : u ∈ (extract_urls msg.text).filter (fun u => !isSkippedUrl u) := by
      rcases List.mem_append.mp hu with h | h
      · exact (List.takeWhile_sublist _).mem h
      · exact (List.Sublist.trans (List.take_sublist 1 _)
          (List.dropWhile_sublist _)).mem h
    exact (List.mem_filter.mp hmem).2
  · cases hres : (tryUrls o.fetchArticle (extract_urls msg.text)).fst with
    | none => unfold processMessage; rw [hres]
    | some cu =>
      obtain ⟨content, url⟩ := cu
      unfold processMessage
      rw [hres]

/-! ### Claim theorems: Delivery Formatter -/

theorem chunks15_flatten {α : Type} : ∀ (l : List α), (chunks15 l).flatten = l
  | [] => rfl
  | a :: rest => by
    rw [chunks15_cons]
    rw [List.flatten_cons, chunks15_flatten ((a :: rest).drop 15)]
    exact List.take_append_drop 15 (a :: rest)
termination_by l => l.length
decreasing_by
  simp [List.length_drop]
  omega

theorem chunks15_length {α : Type} : ∀ (l : List α),
    (chunks15 l).length = (l.length + 14) / 15
  | [] => by simp [chunks15, chunks15Go]
  | a :: rest => by
    rw [chunks15_cons]
    rw [List.length_cons, chunks15_length ((a :: rest).drop 15)]
    simp only [List.length_drop, List.length_cons]
    omega
termination_by l => l.length
decreasing_by
  simp [List.length_drop]
  omega

theorem chunks15_eq_nil_iff {α : Type} (l : List α) : chunks15 l = [] ↔ l = [] := by
  cases l with
  | nil => simp [chunks15, chunks15Go]
  | cons a rest => rw [chunks15_cons]; simp

theorem chunks15_mem_length_le {α : Type} : ∀ (l c : List α),
    c ∈ chunks15 l → c.length ≤ 15
  | [], c, hc => by simp [chunks15, chunks15Go] at hc
  | a :: rest, c, hc => by
    rw [chunks15_cons] at hc
    rcases List.mem_cons.mp hc with h | h
    · subst h
      simp [List.length_take]
    · exact chunks15_mem_length_le ((a :: rest).drop 15) c h
termination_by l => l.length
decreasing_by
  simp [List.length_drop]
  omega

theorem chunks15_dropLast_length {α : Type} : ∀ (l c : List α),
    c ∈ (chunks15 l).dropLast → c.length = 15
  | [], c, hc => by simp [chunks15, chunks15Go] at hc
  | a :: rest, c, hc => by
    rw [chunks15_cons] at hc
    cases hd : chunks15 ((a :: rest).drop 15) with
    | nil => rw [hd] at hc; simp at hc
    | cons x xs =>
      rw [hd] at hc
      rw [List.dropLast_cons₂] at hc
      rcases List.mem_cons.mp hc with h | h
      · subst h
        have hlen : 15 < (a :: rest).length := by
          by_contra hle
          rw [List.drop_eq_nil_of_le (by omega)] at hd
          simp [chunks15, chunks15Go] at hd
        simp only [List.length_cons] at hlen
        simp [List.length_take]
        omega
      · exact chunks15_dropLast_length ((a :: rest).drop 15) c (by rw [hd]; exact h)
termination_by l => l.length
decreasing_by
  simp [List.length_drop]
  omega

/-- A payload contains a `context` (footer) block. -/
def isCtxBlock : Block → Bool
  | .ctx _ => true
  | _ => false

/-- The footer/summary detector on a payload. -/
def hasFooterB (p : List Block) : Bool := p.any isCtxBlock

theorem itemBlocks_no_ctx (start_idx : Nat) (chunk : List SummaryItem) :
    (itemBlocks start_idx chunk).any isCtxBlock = false := by
  rw [List.any_eq_false]
  intro b hb
  unfold itemBlocks at hb
  rw [List.mem_flatten] at hb
  obtain ⟨l, hl, hbl⟩ := hb
  rw [List.mem_map] at hl
  obtain ⟨p, hp, rfl⟩ := hl
  rcases List.mem_append.mp hbl with h | h
  · rcases List.mem_append.mp h with h1 | h2
    · rw [List.mem_singleton] at h1
      subst h1
      simp [isCtxBlock]
    · revert h2
      split
      · intro h2; cases h2
      · intro h2; rw [List.mem_singleton] at h2; subst h2; simp [isCtxBlock]
  · revert h
    split
    · intro h; rw [List.mem_singleton] at h; subst h; simp [isCtxBlock]
    · intro h; cases h

/-- Claim C1 counterexample: Called with an empty summaries list,
`send_to_slack` submits nothing at all — not the single "no items"
notification the claim requires. -/
theorem claim_C1_counterexample :
    ¬ ((send_to_slack [] "2025년 10월 11일").length = 1) := by decide

/-- Claim C1 amended: Called with an empty summaries list,
`send_to_slack` returns immediately (after logging) without issuing any
delivery submission; the orchestrator does invoke it on the empty
aggregate, but no "no items" notification is ever posted. -/
theorem claim_C1_amended (date : String) : send_to_slack [] date = [] := rfl

theorem strData_append (a b : String) : (a ++ b).data = a.data ++ b.data := rfl

/-- Every submitted payload of a nonempty run is the rendering of the
corresponding chunk, with the display name taken from the first item. -/
theorem send_to_slack_getElem (s0 : SummaryItem) (rest : List SummaryItem)
    (date : String) (i : Nat) (p : List Block)
    (hp : (send_to_slack (s0 :: rest) date)[i]? = some p) :
    ∃ c, (chunks15 (s0 :: rest))[i]? = some c ∧
      p = chunkBlocks (channelDisplay s0.channel) date (s0 :: rest).length
        (chunks15 (s0 :: rest)).length (i + 1) c := by
  simp only [send_to_slack] at hp
  rw [List.getElem?_map, List.getElem?_enum] at hp
  cases hc : (chunks15 (s0 :: rest))[i]? with
  | none => rw [hc] at hp; cases hp
  | some c =>
    rw [hc] at hp
    simp only [Option.map_some', Option.some.injEq] at hp
    exact ⟨c, rfl, hp.symm⟩

/-- Claim C8: For a nonempty input of `n` items, `send_to_slack` submits
exactly `⌈n/15⌉` payloads; the chunks partition the input in order, each
of size at most 15, all but the last of size exactly 15 (so 37 items
give chunks of sizes 15, 15, 7); the header of chunk `i+1` carries an
`(idx/total)` annotation iff there is more than one chunk; and the
footer/summary block stating the total item count appears in a payload
iff it is the final chunk. -/
theorem claim_C8 (s0 : SummaryItem) (rest : List SummaryItem) (date : String) :
    (send_to_slack (s0 :: rest) date).length = ((s0 :: rest).length + 14) / 15
    ∧ (chunks15 (s0 :: rest)).flatten = s0 :: rest
    ∧ (∀ c ∈ chunks15 (s0 :: rest), c.length ≤ 15)
    ∧ (∀ c ∈ (chunks15 (s0 :: rest)).dropLast, c.length = 15)
    ∧ (∀ (i : Nat) (p : List Block), (send_to_slack (s0 :: rest) date)[i]? = some p →
        p.head? = some (Block.header
          ("📰 " ++ channelDisplay s0.channel ++ " 일간 크립토 뉴스 요약 - " ++ date ++
            (if 1 < (chunks15 (s0 :: rest)).length then
              " (" ++ toString (i + 1) ++ "/" ++ toString (chunks15 (s0 :: rest)).length ++ ")"
             else ""))))
    ∧ (∀ (i : Nat) (p : List Block), (send_to_slack (s0 :: rest) date)[i]? = some p →
        hasFooterB p = (i + 1 == (chunks15 (s0 :: rest)).length)) := by
  refine ⟨?_, chunks15_flatten (s0 :: rest),
    fun c hc => chunks15_mem_length_le (s0 :: rest) c hc,
    fun c hc => chunks15_dropLast_length (s0 :: rest) c hc, ?_, ?_⟩
  · simp only [send_to_slack, List.length_map, List.enum_length]
    exact chunks15_length (s0 :: rest)
  · intro i p hp
    obtain ⟨c, -, rfl⟩ := send_to_slack_getElem s0 rest date i p hp
    rfl
  · intro i p hp
    obtain ⟨c, -, rfl⟩ := send_to_slack_getElem s0 rest date i p hp
    unfold chunkBlocks hasFooterB
    rw [List.any_append, List.any_append]
    simp only [List.any_cons, List.any_nil, itemBlocks_no_ctx]
    rw [show isCtxBlock (Block.header (headerText (channelDisplay s0.channel) date
      (chunks15 (s0 :: rest)).length (i + 1))) = false from rfl]
    rw [show isCtxBlock Block.divider = false from rfl]
    simp only [Bool.false_or, Bool.or_false]
    split
    · next h => simp [h, footerBlock, isCtxBlock]
    · next h => simp [h]

/-- Witness item for C8 / C10. -/
def wItem : SummaryItem :=
  { summary := "요약", dateKST := 540, link := "https://ex.com/a",
    channel := "ahboyashreads" }

theorem claim_C8_witness :
    ((send_to_slack (wItem :: List.replicate 36 wItem) "2025년 10월 11일")[2]? =
      some (chunkBlocks (channelDisplay wItem.channel) "2025년 10월 11일" 37 3 3
        (List.replicate 7 wItem)))
    ∧ hasFooterB (chunkBlocks (channelDisplay wItem.channel) "2025년 10월 11일" 37 3 3
        (List.replicate 7 wItem)) =
      (2 + 1 == (chunks15 (wItem :: List.replicate 36 wItem)).length) :=
  ⟨by decide,
   (claim_C8 wItem (List.replicate 36 wItem) "2025년 10월 11일").2.2.2.2.2 2
     (chunkBlocks (channelDisplay wItem.channel) "2025년 10월 11일" 37 3 3
       (List.replicate 7 wItem)) (by decide)⟩

theorem headerText_startsWith (display date : String) (total idx : Nat) :
    strStartsWith (headerText display date total idx)
      ("📰 " ++ display ++ " 일간 크립토 뉴스 요약 - ") = true := by
  have hdata : (headerText display date total idx).data =
      ("📰 " ++ display ++ " 일간 크립토 뉴스 요약 - ").data ++
        (date.data ++ (if 1 < total then
          " (" ++ toString idx ++ "/" ++ toString total ++ ")" else "").data) := by
    unfold headerText
    simp only [strData_append]
    simp [List.append_assoc]
  unfold strStartsWith
  rw [hdata]
  exact isPrefixL_append _ _

/-- Claim C10: Every chunk header of a nonempty run names the channel of
the first item of the whole sequence (even when later items belong to
other channels), mapped through the fixed display table
(`ahboyashreads ↦ Ahboyreads`, `shoalresearch ↦ Shoal Research`) with
the raw name as fallback for unknown channels. -/
theorem claim_C10 (s0 : SummaryItem) (rest : List SummaryItem) (date : String)
    (name : String)
    (hname : (name == "ahboyashreads" || name == "shoalresearch") = false) :
    ((send_to_slack (s0 :: rest) date).all (fun p =>
        match p.head? with
        | some (Block.header t) =>
          strStartsWith t ("📰 " ++ channelDisplay s0.channel ++ " 일간 크립토 뉴스 요약 - ")
        | _ => false) = true)
    ∧ channelDisplay "ahboyashreads" = "Ahboyreads"
    ∧ channelDisplay "shoalresearch" = "Shoal Research"
    ∧ channelDisplay name = name := by
  refine ⟨?_, rfl, rfl, ?_⟩
  · rw [List.all_eq_true]
    intro p hp
    simp only [send_to_slack] at hp
    obtain ⟨⟨i, c⟩, -, rfl⟩ := List.mem_map.mp hp
    exact headerText_startsWith (channelDisplay s0.channel) date
      (chunks15 (s0 :: rest)).length (i + 1)
  · unfold channelDisplay
    rw [Bool.or_eq_false_iff] at hname
    rw [if_neg (by simp [hname.1]), if_neg (by simp [hname.2])]

/-- Witness item on a second channel, so the witness run mixes channels. -/
def wItemB : SummaryItem :=
  { summary := "번역", dateKST := 600, link := "", channel := "shoalresearch" }

theorem claim_C10_witness :
    (("mychannel" == "ahboyashreads" || "mychannel" == "shoalresearch") = false)
    ∧ (((send_to_slack (wItem :: [wItemB]) "2025년 10월 11일").all (fun p =>
          match p.head? with
          | some (Block.header t) =>
            strStartsWith t
              ("📰 " ++ channelDisplay wItem.channel ++ " 일간 크립토 뉴스 요약 - ")
          | _ => false) = true)
       ∧ channelDisplay "ahboyashreads" = "Ahboyreads"
       ∧ channelDisplay "shoalresearch" = "Shoal Research"
       ∧ channelDisplay "mychannel" = "mychannel") :=
  ⟨by decide, claim_C10 wItem [wItemB] "2025년 10월 11일" "mychannel" (by decide)⟩

/-! ### Claim theorems: Pipeline Orchestrator error handling -/

/-- A run whose configuration is complete and whose only failure is that
the connection to the message source cannot be established. -/
def envConnFail : Env :=
  { cfg := ⟨some "id", some "hash", some "key", some "url"⟩
    arg := none
    connectOk := false
    fetch := fun _ => Except.error ()
    oracles := oraclesAllFail
    ystart := 0
    yend := 1439
    dateLabel := "2025년 10월 11일" }

/-- Claim C3 counterexample: With complete configuration and no filter
argument — so neither fatal configuration case applies — a failure to
connect to the message source is re-raised by the orchestrator's
catch-all handler (lines 540-542) and aborts the whole run, contradicting
the claim that only the two configuration cases abort. -/
theorem claim_C3_counterexample :
    runMain envConnFail = RunResult.aborted
    ∧ configMissing envConnFail.cfg = false
    ∧ envConnFail.arg = none := by
  refine ⟨rfl, rfl, rfl⟩

/-- Claim C3 amended: The two fatal configuration cases (missing
required configuration; unknown channel-filter argument) exit before any
network activity, and every failure *inside* the pipeline — source
retrieval per channel, article fetching, generation calls, per-chunk
delivery — is recovered, so a run that gets past configuration checks
and connects to the source completes for every combination of oracle
failures; but a failure raised outside those recovery scopes, such as
failing to connect to the message source, is re-raised and aborts the
run. -/
theorem claim_C3_amended (env : Env)
    (hcfg : configMissing env.cfg = false)
    (harg : (match env.arg with
             | none => true
             | some a => TELEGRAM_CHANNELS.any (fun c => c.fst == a)) = true)
    (hconn : env.connectOk = true) :
    (runMain env).isCompleted = true := by
  unfold runMain mainBody
  cases ha : env.arg with
  | none => simp [hcfg, hconn, RunResult.isCompleted]
  | some a =>
    rw [ha] at harg
    have harg' : (TELEGRAM_CHANNELS.any fun c => c.fst == a) = true := harg
    simp [harg', hcfg, hconn, RunResult.isCompleted]

/-- A fully healthy environment restricted to one channel. -/
def envOk : Env :=
  { cfg := ⟨some "id", some "hash", some "key", some "url"⟩
    arg := some "ahboyashreads"
    connectOk := true
    fetch := fun _ => Except.ok []
    oracles := oraclesAllFail
    ystart := 0
    yend := 1439
    dateLabel := "2025년 10월 11일" }

theorem claim_C3_witness :
    configMissing envOk.cfg = false
    ∧ (match envOk.arg with
       | none => true
       | some a => TELEGRAM_CHANNELS.any (fun c => c.fst == a)) = true
    ∧ envOk.connectOk = true
    ∧ (runMain envOk).isCompleted = true :=
  ⟨rfl, by decide, rfl, claim_C3_amended envOk rfl (by decide) rfl⟩

end TgSlack
